import Mathlib

/-!
Shallow embedding of the `g048` board engine (`model/board.go`) and a
verification of its specification claims.

The Go source keeps the grid as a `BoardSize x BoardSize` (`4 x 4`) array of
`Tile` (`uint32`) values together with a `uint32` score and a pseudo-random
generator.  We embed:

* `Grid` as a function `Fin 4 → Fin 4 → Nat`; tile values are naturals and
  every arithmetic operation of the source that can overflow a `uint32`
  (`*= 2` on a tile, `+=` on the score) is performed modulo `2 ^ 32`,
  mirroring Go unsigned-integer wraparound.
* the pseudo-random generator as explicit inputs: the draw
  `random.Intn(4)` used to pick the spawned tile value becomes a `Fin 4`
  argument, and the draw `random.Intn(possibleSize)` used to pick the
  spawn cell becomes a `Nat` argument reduced modulo the number of empty
  cells (Go `Intn(n)` always returns a value in `[0, n)`, so reducing the
  argument modulo the list length ranges over exactly the same draws).
* the callback-based `RenderBoard` as the list of arguments of the
  successive callback invocations, in invocation order.

The loops of the source only ever build in-range coordinates, so
`Coordinate` carries `Fin 4` fields; `IsEndGame`, whose Go loops use `int`
indices with guarded out-of-range neighbor accesses, is embedded through
the bounds-checked accessor `gat`.
-/

namespace G048

/-- BoardSize is the default size of the board (`BoardSize = 4`). -/
def BoardSize : Nat := 4

/-- Modulus of Go `uint32` arithmetic (`Tile` and `Score` are `uint32`). -/
def U32 : Nat := 2 ^ 32

/-- Grid represents tiles on the game board
(Go: `type Grid [BoardSize][BoardSize]Tile`). -/
def Grid : Type := Fin 4 → Fin 4 → Nat

instance : DecidableEq Grid :=
  fun g h => Fintype.decidablePiFintype g h

/-- Coordinate stores a (row, col) pairing.  The source uses `int` fields,
but every coordinate it constructs lies in `[0, BoardSize)`. -/
structure Coordinate where
  Row : Fin 4
  Col : Fin 4
deriving DecidableEq

/-- Board is the primary structure that represents the game state: the
current tile layout and the current score.  The random generator field of
the Go struct is modelled by explicit draw arguments to the operations. -/
structure Board where
  grid : Grid
  score : Nat

instance : DecidableEq Board := fun a b =>
  decidable_of_iff (a.grid = b.grid ∧ a.score = b.score)
    (by cases a; cases b; simp)

/-- Build a grid from a row-major list of rows (missing entries are 0).
Convenience constructor for concrete test boards. -/
def mkGrid (rows : List (List Nat)) : Grid :=
  fun r c => ((rows.getD r.val []).getD c.val 0)

/-- The all-zero grid a new board starts from (Go zero value of `Grid`). -/
def zeroGrid : Grid := fun _ _ => 0

/-- Write value `v` at position `p` (Go: `b.grid[p.Row][p.Col] = v`). -/
def setCell (g : Grid) (p : Coordinate) (v : Nat) : Grid :=
  fun r c => if r = p.Row ∧ c = p.Col then v else g r c

/-- Bounds-checked accessor used to embed the `int`-indexed loops of
`IsEndGame`; the guards of the source keep every access in range, so the
out-of-range fallback value 0 is never consulted. -/
def gat (g : Grid) (r c : Nat) : Nat :=
  if h : r < 4 ∧ c < 4 then g ⟨r, h.1⟩ ⟨c, h.2⟩ else 0

/-- All 16 coordinates in row-major order (the traversal order of every
`for row ... for col ...` loop of the source). -/
def allCoords : List Coordinate :=
  (List.finRange 4).flatMap fun r => (List.finRange 4).map fun c => ⟨r, c⟩

/-- The empty (value 0) cells of a grid, in row-major order: the
`possiblePositions` list built by `generateTile`. -/
def emptyCells (g : Grid) : List Coordinate :=
  allCoords.filter fun p => g p.Row p.Col == 0

/-- `generateTile` generates a new random tile and places it on the board.
`r4` is the draw `b.random.Intn(4)` (value 4 exactly when it is 0, else 2);
`pick` determines the draw `b.random.Intn(possibleSize)` selecting among
the empty cells (reduced modulo the list length). -/
def generateTile (r4 : Fin 4) (pick : Nat) (b : Board) : Board :=
  let tileValue : Nat := if r4 = 0 then 4 else 2
  let possiblePositions := emptyCells b.grid
  if 0 < possiblePositions.length then
    let pos := possiblePositions.getD (pick % possiblePositions.length) ⟨0, 0⟩
    { b with grid := setCell b.grid pos tileValue }
  else
    b

/-- `initBoard`: two tiles are randomly placed on the empty board. -/
def initBoard (r4a : Fin 4) (picka : Nat) (r4b : Fin 4) (pickb : Nat)
    (b : Board) : Board :=
  generateTile r4b pickb (generateTile r4a picka b)

/-- `NewBoard` constructs a new board to play with: score 0, zero grid,
then `initBoard` places two starting tiles.  The four extra arguments are
the random draws consumed by the two `generateTile` calls. -/
def NewBoard (r4a : Fin 4) (picka : Nat) (r4b : Fin 4) (pickb : Nat) :
    Board :=
  initBoard r4a picka r4b pickb { grid := zeroGrid, score := 0 }

/-- `calcMove` centralizes the move logic for all 4 moves: `curPos` is the
current position being examined and `nextPos` the position one step in the
direction of the move.  Mirrors the three branches of the source:
move-into-empty, merge-equal (doubling the target modulo `2 ^ 32` and
adding the pre-merge target value to the score modulo `2 ^ 32`), blocked. -/
def calcMove (b : Board) (curPos nextPos : Coordinate) : Board :=
  let curValue := b.grid curPos.Row curPos.Col
  let nextValue := b.grid nextPos.Row nextPos.Col
  if nextValue = 0 then
    { b with grid := setCell (setCell b.grid nextPos curValue) curPos 0 }
  else if curValue = nextValue then
    { grid := setCell (setCell b.grid nextPos ((nextValue * 2) % U32)) curPos 0,
      score := (b.score + nextValue) % U32 }
  else
    b

/-- Apply `calcMove` over a list of (curPos, nextPos) pairs in order: one
directional iteration (`moveBoard` lambda) of the source. -/
def sweep (pairs : List (Coordinate × Coordinate)) (b : Board) : Board :=
  pairs.foldl (fun b p => calcMove b p.1 p.2) b

/-- The (curPos, nextPos) pairs visited by the `MoveLeft` lambda:
`for row := 0..3 { for col := 1..3 { calcMove((row,col),(row,col-1)) } }`. -/
def leftPairs : List (Coordinate × Coordinate) :=
  [(⟨0, 1⟩, ⟨0, 0⟩), (⟨0, 2⟩, ⟨0, 1⟩), (⟨0, 3⟩, ⟨0, 2⟩),
   (⟨1, 1⟩, ⟨1, 0⟩), (⟨1, 2⟩, ⟨1, 1⟩), (⟨1, 3⟩, ⟨1, 2⟩),
   (⟨2, 1⟩, ⟨2, 0⟩), (⟨2, 2⟩, ⟨2, 1⟩), (⟨2, 3⟩, ⟨2, 2⟩),
   (⟨3, 1⟩, ⟨3, 0⟩), (⟨3, 2⟩, ⟨3, 1⟩), (⟨3, 3⟩, ⟨3, 2⟩)]

/-- The pairs visited by the `MoveRight` lambda:
`for row := 0..3 { for col := 2..0 { calcMove((row,col),(row,col+1)) } }`. -/
def rightPairs : List (Coordinate × Coordinate) :=
  [(⟨0, 2⟩, ⟨0, 3⟩), (⟨0, 1⟩, ⟨0, 2⟩), (⟨0, 0⟩, ⟨0, 1⟩),
   (⟨1, 2⟩, ⟨1, 3⟩), (⟨1, 1⟩, ⟨1, 2⟩), (⟨1, 0⟩, ⟨1, 1⟩),
   (⟨2, 2⟩, ⟨2, 3⟩), (⟨2, 1⟩, ⟨2, 2⟩), (⟨2, 0⟩, ⟨2, 1⟩),
   (⟨3, 2⟩, ⟨3, 3⟩), (⟨3, 1⟩, ⟨3, 2⟩), (⟨3, 0⟩, ⟨3, 1⟩)]

/-- The pairs visited by the `MoveUp` lambda:
`for row := 1..3 { for col := 0..3 { calcMove((row,col),(row-1,col)) } }`. -/
def upPairs : List (Coordinate × Coordinate) :=
  [(⟨1, 0⟩, ⟨0, 0⟩), (⟨1, 1⟩, ⟨0, 1⟩), (⟨1, 2⟩, ⟨0, 2⟩), (⟨1, 3⟩, ⟨0, 3⟩),
   (⟨2, 0⟩, ⟨1, 0⟩), (⟨2, 1⟩, ⟨1, 1⟩), (⟨2, 2⟩, ⟨1, 2⟩), (⟨2, 3⟩, ⟨1, 3⟩),
   (⟨3, 0⟩, ⟨2, 0⟩), (⟨3, 1⟩, ⟨2, 1⟩), (⟨3, 2⟩, ⟨2, 2⟩), (⟨3, 3⟩, ⟨2, 3⟩)]

/-- The pairs visited by the `MoveDown` lambda:
`for row := 2..0 { for col := 0..3 { calcMove((row,col),(row+1,col)) } }`. -/
def downPairs : List (Coordinate × Coordinate) :=
  [(⟨2, 0⟩, ⟨3, 0⟩), (⟨2, 1⟩, ⟨3, 1⟩), (⟨2, 2⟩, ⟨3, 2⟩), (⟨2, 3⟩, ⟨3, 3⟩),
   (⟨1, 0⟩, ⟨2, 0⟩), (⟨1, 1⟩, ⟨2, 1⟩), (⟨1, 2⟩, ⟨2, 2⟩), (⟨1, 3⟩, ⟨2, 3⟩),
   (⟨0, 0⟩, ⟨1, 0⟩), (⟨0, 1⟩, ⟨1, 1⟩), (⟨0, 2⟩, ⟨1, 2⟩), (⟨0, 3⟩, ⟨1, 3⟩)]

/-- One directional iteration of each move. -/
def sweepLeft (b : Board) : Board := sweep leftPairs b

/-- One directional iteration of `MoveRight`. -/
def sweepRight (b : Board) : Board := sweep rightPairs b

/-- One directional iteration of `MoveUp`. -/
def sweepUp (b : Board) : Board := sweep upPairs b

/-- One directional iteration of `MoveDown`. -/
def sweepDown (b : Board) : Board := sweep downPairs b

/-- `makeMove` de-dupes the core move logic: repeat the accumulation
process `BoardSize - 1 = 3` times (`for i := 1; i < BoardSize; i++`), then
every move generates a tile, if possible. -/
def makeMove (r4 : Fin 4) (pick : Nat) (move : Board → Board) (b : Board) :
    Board :=
  generateTile r4 pick (move (move (move b)))

/-- The slide/merge phase of `MoveLeft` (the three sweeps, before the
spawn). -/
def slideLeft (b : Board) : Board := sweepLeft (sweepLeft (sweepLeft b))

/-- The slide/merge phase of `MoveRight`. -/
def slideRight (b : Board) : Board := sweepRight (sweepRight (sweepRight b))

/-- The slide/merge phase of `MoveUp`. -/
def slideUp (b : Board) : Board := sweepUp (sweepUp (sweepUp b))

/-- The slide/merge phase of `MoveDown`. -/
def slideDown (b : Board) : Board := sweepDown (sweepDown (sweepDown b))

/-- `MoveLeft` moves tiles to the left, then spawns a tile if possible. -/
def MoveLeft (r4 : Fin 4) (pick : Nat) (b : Board) : Board :=
  makeMove r4 pick sweepLeft b

/-- `MoveRight` moves tiles to the right, then spawns a tile if possible. -/
def MoveRight (r4 : Fin 4) (pick : Nat) (b : Board) : Board :=
  makeMove r4 pick sweepRight b

/-- `MoveUp` moves tiles up, then spawns a tile if possible. -/
def MoveUp (r4 : Fin 4) (pick : Nat) (b : Board) : Board :=
  makeMove r4 pick sweepUp b

/-- `MoveDown` moves tiles down, then spawns a tile if possible. -/
def MoveDown (r4 : Fin 4) (pick : Nat) (b : Board) : Board :=
  makeMove r4 pick sweepDown b

/-- `RenderBoard` iterates over the board in row-major order; we record
the argument triple of each `draw` callback invocation, in invocation
order.  The `isEOL` flag is `(col + 1) == BoardSize`. -/
def RenderBoard (b : Board) : List (Coordinate × Bool × Nat) :=
  (List.finRange 4).flatMap fun row =>
    (List.finRange 4).map fun col =>
      (⟨row, col⟩, col.val + 1 == 4, b.grid row col)

/-- `IsEndGame` determines if the game has ended: the board must be filled
and no 2 adjacent tiles hold the same value.  Mirrors the early-return
loop of the source: the result is true exactly when no cell triggers any
of the five `return false` conditions (`boundSize = BoardSize - 1 = 3`). -/
def IsEndGame (b : Board) : Bool :=
  (List.range 4).all fun row =>
    (List.range 4).all fun col =>
      let value := gat b.grid row col
      (value != 0) &&
      (!(decide (0 < row) && (value == gat b.grid (row - 1) col))) &&
      (!(decide (row < 3) && (value == gat b.grid (row + 1) col))) &&
      (!(decide (0 < col) && (value == gat b.grid row (col - 1)))) &&
      (!(decide (col < 3) && (value == gat b.grid row (col + 1))))

/-- Number of occupied (nonzero) cells of a grid. -/
def numOccupied (g : Grid) : Nat :=
  (Finset.univ.filter fun q : Fin 4 × Fin 4 => g q.1 q.2 ≠ 0).card

/-! ### The earlier revision (`src/src/g048/model/board.go`)

In that revision the bodies of `MoveRight`, `MoveUp` and `MoveDown` hold
only a `// TODO implement` comment: the receiver is not touched, so each
is the identity on the board state. -/

/-- `MoveRight` of the earlier revision: empty body, board unchanged. -/
def OldMoveRight (b : Board) : Board := b

/-- `MoveUp` of the earlier revision: empty body, board unchanged. -/
def OldMoveUp (b : Board) : Board := b

/-- `MoveDown` of the earlier revision: empty body, board unchanged. -/
def OldMoveDown (b : Board) : Board := b

/-! ### Reachable board states -/

/-- The board states a game can be in: a fresh `NewBoard` (under any random
draws), or the result of one of the four move operations (under any random
draws) applied to a reachable state.  `RenderBoard`, `IsEndGame` and the
score display are pure reads and do not change the state. -/
inductive Reachable : Board → Prop where
  | newBoard (r4a : Fin 4) (picka : Nat) (r4b : Fin 4) (pickb : Nat) :
      Reachable (NewBoard r4a picka r4b pickb)
  | left {b : Board} (r4 : Fin 4) (pick : Nat) :
      Reachable b → Reachable (MoveLeft r4 pick b)
  | right {b : Board} (r4 : Fin 4) (pick : Nat) :
      Reachable b → Reachable (MoveRight r4 pick b)
  | up {b : Board} (r4 : Fin 4) (pick : Nat) :
      Reachable b → Reachable (MoveUp r4 pick b)
  | down {b : Board} (r4 : Fin 4) (pick : Nat) :
      Reachable b → Reachable (MoveDown r4 pick b)

/-- Cell invariant: empty, or a power of two that is at least 2 and fits a
`uint32` (so that one more doubling wraps to 0 rather than leaving the
powers of two). -/
def GoodVal (v : Nat) : Prop := v = 0 ∨ ∃ k, 1 ≤ k ∧ k ≤ 31 ∧ v = 2 ^ k

/-- Every cell of the grid satisfies `GoodVal`. -/
def GoodGrid (g : Grid) : Prop := ∀ r c : Fin 4, GoodVal (g r c)

/-! ### Row view of the left sweep

`MoveLeft` touches the four rows independently; `rowOf` extracts one row
as a 4-tuple and `step1`/`step2`/`step3` are the effect of the three
`calcMove` calls of one sweep on that row (`stepJ` is the call with
`curPos` in column `j` and `nextPos` in column `j - 1`). -/

/-- Row `r` of a grid, as a tuple `(g r 0, g r 1, g r 2, g r 3)`. -/
def rowOf (g : Grid) (r : Fin 4) : Nat × Nat × Nat × Nat :=
  (g r 0, g r 1, g r 2, g r 3)

/-- Effect on a row of `calcMove` at `curPos = (r,1)`, `nextPos = (r,0)`. -/
def step1 : Nat × Nat × Nat × Nat → Nat × Nat × Nat × Nat
  | (a, b, c, d) =>
    if a = 0 then (b, 0, c, d)
    else if b = a then ((a * 2) % U32, 0, c, d)
    else (a, b, c, d)

/-- Effect on a row of `calcMove` at `curPos = (r,2)`, `nextPos = (r,1)`. -/
def step2 : Nat × Nat × Nat × Nat → Nat × Nat × Nat × Nat
  | (a, b, c, d) =>
    if b = 0 then (a, c, 0, d)
    else if c = b then (a, (b * 2) % U32, 0, d)
    else (a, b, c, d)

/-- Effect on a row of `calcMove` at `curPos = (r,3)`, `nextPos = (r,2)`. -/
def step3 : Nat × Nat × Nat × Nat → Nat × Nat × Nat × Nat
  | (a, b, c, d) =>
    if c = 0 then (a, b, d, 0)
    else if d = c then (a, b, (c * 2) % U32, 0)
    else (a, b, c, d)

/-- One full left sweep, restricted to a single row. -/
def rowSweep (t : Nat × Nat × Nat × Nat) : Nat × Nat × Nat × Nat :=
  step3 (step2 (step1 t))

/-- A row holds no two adjacent equal nonzero values: whenever two
adjacent cells agree, they are empty. -/
def noAdjRow (t : Nat × Nat × Nat × Nat) : Prop :=
  (t.1 = t.2.1 → t.1 = 0) ∧ (t.2.1 = t.2.2.1 → t.2.1 = 0) ∧
  (t.2.2.1 = t.2.2.2 → t.2.2.1 = 0)

/-! ### The specification side of the end-of-game predicate -/

/-- Two coordinates are grid-adjacent: same row and columns one apart, or
same column and rows one apart (up/down/left/right, not diagonal). -/
def AdjCoord (p q : Coordinate) : Prop :=
  (p.Row = q.Row ∧ (p.Col.val + 1 = q.Col.val ∨ q.Col.val + 1 = p.Col.val)) ∨
  (p.Col = q.Col ∧ (p.Row.val + 1 = q.Row.val ∨ q.Row.val + 1 = p.Row.val))

/-- The grid is completely full: no zero cells. -/
def FullGrid (g : Grid) : Prop := ∀ r c : Fin 4, g r c ≠ 0

/-- End-of-game as the specification words it: the grid is completely full
and no two grid-adjacent cells share the same value. -/
def EndSpec (b : Board) : Prop :=
  FullGrid b.grid ∧
  ∀ p q : Coordinate, AdjCoord p q → b.grid p.Row p.Col ≠ b.grid q.Row q.Col

/-! ### Concrete boards used in counterexamples and witnesses -/

/-- Board whose first row is `[2, 2, 0, 0]`, all other cells empty. -/
def exRow2200 : Board := { grid := mkGrid [[2, 2, 0, 0]], score := 0 }

/-- Board whose first row is `[2, 0, 2, 2]`, all other cells empty
(the concrete scenario of the specification). -/
def exRow2022 : Board := { grid := mkGrid [[2, 0, 2, 2]], score := 0 }

/-- Board whose first row is `[2, 2, 2, 2]`, all other cells empty. -/
def exRow2222 : Board := { grid := mkGrid [[2, 2, 2, 2]], score := 0 }

/-- A full 4x4 checkerboard of 2s and 4s: no empty cell and no two
adjacent cells equal. -/
def chkBoard : Board :=
  { grid := mkGrid [[2, 4, 2, 4], [4, 2, 4, 2], [2, 4, 2, 4], [4, 2, 4, 2]],
    score := 0 }

/-- The checkerboard with its top-left cell set to 0. -/
def chkBoard0 : Board :=
  { grid := mkGrid [[0, 4, 2, 4], [4, 2, 4, 2], [2, 4, 2, 4], [4, 2, 4, 2]],
    score := 0 }

/-! ## Theorems -/

/-- Values of the four `Fin 4` literals. -/
lemma finv0 : ((0 : Fin 4) : Nat) = 0 := rfl

/-- Value of the `Fin 4` literal 1. -/
lemma finv1 : ((1 : Fin 4) : Nat) = 1 := rfl

/-- Value of the `Fin 4` literal 2. -/
lemma finv2 : ((2 : Fin 4) : Nat) = 2 := rfl

/-- Value of the `Fin 4` literal 3. -/
lemma finv3 : ((3 : Fin 4) : Nat) = 3 := rfl

/-- Two coordinates are equal exactly when both components agree. -/
lemma coordinate_eq_iff (p q : Coordinate) :
    p = q ↔ (p.Row = q.Row ∧ p.Col = q.Col) := by
  cases p; cases q; simp

/-- Claim C10: in the earlier revision (`src/src/g048/model/board.go`),
`MoveRight`, `MoveUp` and `MoveDown` have empty bodies, so each leaves the
entire board unchanged for every board state: no tile moves or merges, the
score does not change, and no tile is spawned. -/
theorem old_moves_noop (b : Board) :
    OldMoveRight b = b ∧ OldMoveUp b = b ∧ OldMoveDown b = b :=
  ⟨rfl, rfl, rfl⟩

/-- Claim C9: `RenderBoard` produces exactly 16 callback invocations, one
per cell in row-major order; the invocation for cell `(r, c)` is the
`(4 r + c)`-th, carries the end-of-line flag exactly when `c` is the last
column, and carries the value of that cell.  The traversal is a pure
function of the board (the embedding returns the invocation list, so two
calls on the same board are the same list by construction). -/
theorem renderBoard_row_major (b : Board) :
    (RenderBoard b).length = 16 ∧
    ∀ r c : Fin 4, (RenderBoard b).get? (4 * r.val + c.val) =
      some (⟨r, c⟩, decide (c.val = 3), b.grid r c) := by
  constructor
  · rfl
  · intro r c
    fin_cases r <;> fin_cases c <;> rfl

/-- Claim C4, counterexample: on the board whose first row is
`[2, 0, 2, 2]`, `MoveLeft` (here under the random draws value-2, first
empty cell) increases the score by 2, not by 4, and its spawn places a
tile at `(0, 2)`, so the first row is not `[4, 2, 0, 0]` either. -/
theorem moveLeft_row2022_cex :
    (MoveLeft 1 0 exRow2022).score = 2 ∧
    ¬((MoveLeft 1 0 exRow2022).score = exRow2022.score + 4) ∧
    (MoveLeft 1 0 exRow2022).grid 0 2 = 2 := by
  decide

/-- Claim C4, amended: starting from the grid whose first row is
`[2, 0, 2, 2]` (other rows empty), the slide phase of `MoveLeft` produces
the row `[4, 2, 0, 0]` — the pair merges to 4 and the trailing 2 slides in
behind it without merging again — and the score increases by 2, the
pre-merge value of the merged pair; the full `MoveLeft` then performs one
spawn attempt on this result. -/
theorem moveLeft_row2022_slide :
    slideLeft exRow2022 =
      { grid := mkGrid [[4, 2, 0, 0]], score := exRow2022.score + 2 } ∧
    ∀ (r4 : Fin 4) (pick : Nat),
      MoveLeft r4 pick exRow2022 = generateTile r4 pick (slideLeft exRow2022) :=
  ⟨by decide, fun _ _ => rfl⟩

/-- Claim C1, counterexample: on the board whose first row is
`[2, 2, 0, 0]`, `MoveLeft` performs exactly one merge (two 2s into a 4);
the claim says the score increases by the new doubled value 4, but the
code adds the pre-merge value: the score increases by 2. -/
theorem moveLeft_merge_score_cex :
    (MoveLeft 1 0 exRow2200).score = exRow2200.score + 2 ∧
    ¬((MoveLeft 1 0 exRow2200).score = exRow2200.score + 4) := by
  decide

/-- Claim C1, amended: whenever `calcMove` merges two equal adjacent
tiles, the score increases by exactly the pre-merge value of the target
tile — half the new doubled value — (modulo `2 ^ 32`, as the score is a
`uint32`): `score += Score(nextValue)` runs with the value read before the
doubling. -/
theorem calcMove_merge_score (b : Board) (curPos nextPos : Coordinate)
    (hnz : b.grid nextPos.Row nextPos.Col ≠ 0)
    (heq : b.grid curPos.Row curPos.Col = b.grid nextPos.Row nextPos.Col) :
    (calcMove b curPos nextPos).score =
      (b.score + b.grid nextPos.Row nextPos.Col) % U32 := by
  simp only [calcMove]
  rw [if_neg hnz, if_pos heq]

/-- Witness for `calcMove_merge_score` at a concrete merge. -/
theorem calcMove_merge_score_witness :
    (calcMove exRow2200 ⟨0, 1⟩ ⟨0, 0⟩).score =
      (exRow2200.score + exRow2200.grid 0 0) % U32 :=
  calcMove_merge_score exRow2200 ⟨0, 1⟩ ⟨0, 0⟩ (by decide) (by decide)

/-- An in-range `getD` is a member of the list. -/
lemma getD_mem_of_lt (l : List Coordinate) (i : Nat) (d : Coordinate)
    (h : i < l.length) : l.getD i d ∈ l := by
  induction l generalizing i with
  | nil => simp at h
  | cons a t ih =>
    cases i with
    | zero => simp [List.getD]
    | succ n =>
      have : (a :: t).getD (n + 1) d = t.getD n d := rfl
      rw [this]
      exact List.mem_cons_of_mem _ (ih n (by simpa using h))

/-- Members of `emptyCells g` are empty cells of `g`. -/
lemma mem_emptyCells (g : Grid) (p : Coordinate) (h : p ∈ emptyCells g) :
    g p.Row p.Col = 0 := by
  unfold emptyCells at h
  have := List.of_mem_filter h
  simpa using this

/-- A full grid has no empty cells. -/
lemma emptyCells_eq_nil (g : Grid) (h : ∀ r c : Fin 4, g r c ≠ 0) :
    emptyCells g = [] := by
  unfold emptyCells
  rw [List.filter_eq_nil_iff]
  intro p _
  simpa using h p.Row p.Col

/-- Writing a nonzero value into an empty cell raises the occupied-cell
count by exactly one. -/
lemma numOccupied_setCell (g : Grid) (p : Coordinate) (v : Nat)
    (hv : v ≠ 0) (h0 : g p.Row p.Col = 0) :
    numOccupied (setCell g p v) = numOccupied g + 1 := by
  unfold numOccupied
  have key : (Finset.univ.filter fun q : Fin 4 × Fin 4 => setCell g p v q.1 q.2 ≠ 0)
      = insert (p.Row, p.Col)
          (Finset.univ.filter fun q : Fin 4 × Fin 4 => g q.1 q.2 ≠ 0) := by
    ext q
    by_cases hq : q = (p.Row, p.Col)
    · subst hq
      simp [setCell, hv]
    · have hq2 : ¬(q.1 = p.Row ∧ q.2 = p.Col) := by
        intro hc
        exact hq (Prod.ext hc.1 hc.2)
      simp [setCell, hq2, hq]
  rw [key, Finset.card_insert_of_not_mem (by simp [h0])]

/-- If the grid has no empty cell, `generateTile` does nothing. -/
lemma generateTile_of_no_empty (b : Board) (r4 : Fin 4) (pick : Nat)
    (h : emptyCells b.grid = []) : generateTile r4 pick b = b := by
  simp only [generateTile]
  rw [if_neg]
  simp [h]

/-- Claim C5: every move operation runs exactly one spawn attempt on the
slid board, regardless of whether the slide changed the grid.  If the grid
has no empty cell the attempt does nothing (no error); otherwise exactly
one empty cell is set to 2 or 4 (4 exactly when the `Intn(4)` draw is 0),
every other cell is unchanged, the occupied count rises by exactly one,
and the score is untouched. -/
theorem generateTile_spawn_spec (b : Board) (r4 : Fin 4) (pick : Nat) :
    (emptyCells b.grid = [] → generateTile r4 pick b = b) ∧
    (emptyCells b.grid ≠ [] → ∃ p : Coordinate,
      b.grid p.Row p.Col = 0 ∧
      (generateTile r4 pick b).grid = setCell b.grid p (if r4 = 0 then 4 else 2) ∧
      ((generateTile r4 pick b).grid p.Row p.Col = 2 ∨
       (generateTile r4 pick b).grid p.Row p.Col = 4) ∧
      (∀ q : Coordinate, q ≠ p →
        (generateTile r4 pick b).grid q.Row q.Col = b.grid q.Row q.Col) ∧
      numOccupied (generateTile r4 pick b).grid = numOccupied b.grid + 1) ∧
    (generateTile r4 pick b).score = b.score ∧
    MoveLeft r4 pick b = generateTile r4 pick (slideLeft b) ∧
    MoveRight r4 pick b = generateTile r4 pick (slideRight b) ∧
    MoveUp r4 pick b = generateTile r4 pick (slideUp b) ∧
    MoveDown r4 pick b = generateTile r4 pick (slideDown b) := by
  refine ⟨generateTile_of_no_empty b r4 pick, ?_, ?_, rfl, rfl, rfl, rfl⟩
  · intro hne
    have hlen : 0 < (emptyCells b.grid).length := List.length_pos.mpr hne
    set p := (emptyCells b.grid).getD (pick % (emptyCells b.grid).length) ⟨0, 0⟩
      with hp
    have hmem : p ∈ emptyCells b.grid :=
      getD_mem_of_lt _ _ _ (Nat.mod_lt _ hlen)
    have hzero : b.grid p.Row p.Col = 0 := mem_emptyCells _ _ hmem
    have hgrid : (generateTile r4 pick b).grid =
        setCell b.grid p (if r4 = 0 then 4 else 2) := by
      simp only [generateTile]
      rw [if_pos hlen]
    have hvnz : (if r4 = 0 then (4 : Nat) else 2) ≠ 0 := by
      split <;> simp
    refine ⟨p, hzero, hgrid, ?_, ?_, ?_⟩
    · rw [hgrid]
      unfold setCell
      rw [if_pos ⟨rfl, rfl⟩]
      split <;> simp
    · intro q hq
      rw [hgrid]
      unfold setCell
      rw [if_neg]
      intro hc
      exact hq ((coordinate_eq_iff q p).mpr hc)
    · rw [hgrid]
      exact numOccupied_setCell _ _ _ hvnz hzero
  · simp only [generateTile]
    split <;> rfl

/-- Claim C6: on a completely full board, a move whose slide phase changes
nothing leaves the board bit-for-bit identical, score included: the spawn
is gated on the fill state only, and a full board has no empty cell. -/
theorem move_full_blocked_noop (b : Board) (r4 : Fin 4) (pick : Nat)
    (hfull : ∀ r c : Fin 4, b.grid r c ≠ 0) :
    (slideLeft b = b → MoveLeft r4 pick b = b) ∧
    (slideRight b = b → MoveRight r4 pick b = b) ∧
    (slideUp b = b → MoveUp r4 pick b = b) ∧
    (slideDown b = b → MoveDown r4 pick b = b) := by
  have hgen : generateTile r4 pick b = b :=
    generateTile_of_no_empty b r4 pick (emptyCells_eq_nil _ hfull)
  refine ⟨fun hs => ?_, fun hs => ?_, fun hs => ?_, fun hs => ?_⟩
  · rw [show MoveLeft r4 pick b = generateTile r4 pick (slideLeft b) from rfl,
      hs, hgen]
  · rw [show MoveRight r4 pick b = generateTile r4 pick (slideRight b) from rfl,
      hs, hgen]
  · rw [show MoveUp r4 pick b = generateTile r4 pick (slideUp b) from rfl,
      hs, hgen]
  · rw [show MoveDown r4 pick b = generateTile r4 pick (slideDown b) from rfl,
      hs, hgen]

/-- Witness for `move_full_blocked_noop`: the checkerboard is full and
blocked in all four directions, and all four moves leave it unchanged. -/
theorem move_full_blocked_noop_witness :
    MoveLeft 0 0 chkBoard = chkBoard ∧ MoveRight 0 0 chkBoard = chkBoard ∧
    MoveUp 0 0 chkBoard = chkBoard ∧ MoveDown 0 0 chkBoard = chkBoard :=
  ⟨(move_full_blocked_noop chkBoard 0 0 (by decide)).1 (by decide),
   (move_full_blocked_noop chkBoard 0 0 (by decide)).2.1 (by decide),
   (move_full_blocked_noop chkBoard 0 0 (by decide)).2.2.1 (by decide),
   (move_full_blocked_noop chkBoard 0 0 (by decide)).2.2.2 (by decide)⟩

/-- Doubling modulo `2 ^ 32` preserves the cell invariant: a power
`2 ^ k` with `k ≤ 30` doubles to `2 ^ (k + 1)`, and `2 ^ 31` wraps to 0. -/
lemma goodVal_double (v : Nat) (h : GoodVal v) : GoodVal ((v * 2) % U32) := by
  rcases h with h | ⟨k, hk1, hk31, hv⟩
  · subst h
    exact Or.inl rfl
  · subst hv
    by_cases h31 : k = 31
    · subst h31
      left
      decide
    · right
      refine ⟨k + 1, by omega, by omega, ?_⟩
      have hlt : 2 ^ (k + 1) < 2 ^ 32 :=
        Nat.pow_lt_pow_right (by norm_num) (by omega)
      rw [show (2 : Nat) ^ k * 2 = 2 ^ (k + 1) from (pow_succ 2 k).symm]
      exact Nat.mod_eq_of_lt hlt

/-- `setCell` with a good value preserves the grid invariant. -/
lemma goodGrid_setCell (g : Grid) (p : Coordinate) (v : Nat)
    (hv : GoodVal v) (hg : GoodGrid g) : GoodGrid (setCell g p v) := by
  intro r c
  unfold setCell
  split
  · exact hv
  · exact hg r c

/-- `calcMove` preserves the grid invariant. -/
lemma goodGrid_calcMove (b : Board) (cur nxt : Coordinate)
    (hg : GoodGrid b.grid) : GoodGrid (calcMove b cur nxt).grid := by
  simp only [calcMove]
  split_ifs with h1 h2
  · exact goodGrid_setCell _ _ _ (Or.inl rfl)
      (goodGrid_setCell _ _ _ (hg cur.Row cur.Col) hg)
  · exact goodGrid_setCell _ _ _ (Or.inl rfl)
      (goodGrid_setCell _ _ _ (goodVal_double _ (hg nxt.Row nxt.Col)) hg)
  · exact hg

/-- A sweep preserves the grid invariant. -/
lemma goodGrid_sweep (ps : List (Coordinate × Coordinate)) (b : Board)
    (hg : GoodGrid b.grid) : GoodGrid (sweep ps b).grid := by
  induction ps generalizing b with
  | nil => exact hg
  | cons hd tl ih =>
    have : sweep (hd :: tl) b = sweep tl (calcMove b hd.1 hd.2) := by
      simp [sweep]
    rw [this]
    exact ih _ (goodGrid_calcMove _ _ _ hg)

/-- A spawn attempt preserves the grid invariant (it writes 2 or 4). -/
lemma goodGrid_generateTile (b : Board) (r4 : Fin 4) (pick : Nat)
    (hg : GoodGrid b.grid) : GoodGrid (generateTile r4 pick b).grid := by
  simp only [generateTile]
  split_ifs with h h4
  · exact goodGrid_setCell _ _ _ (Or.inr ⟨2, by omega, by omega, by norm_num⟩) hg
  · exact goodGrid_setCell _ _ _ (Or.inr ⟨1, by omega, by omega, by norm_num⟩) hg
  · exact hg

/-- A full move (three sweeps then a spawn attempt) preserves the grid
invariant. -/
lemma goodGrid_makeMove (ps : List (Coordinate × Coordinate)) (r4 : Fin 4)
    (pick : Nat) (b : Board) (hg : GoodGrid b.grid) :
    GoodGrid (makeMove r4 pick (sweep ps) b).grid := by
  unfold makeMove
  exact goodGrid_generateTile _ _ _
    (goodGrid_sweep _ _ (goodGrid_sweep _ _ (goodGrid_sweep _ _ hg)))

/-- Claim C7: at all times — after `NewBoard` and after any sequence of
move operations — every cell of the grid holds either 0 or a power of two
that is at least 2. -/
theorem reachable_cells_pow_two (b : Board) (hb : Reachable b) :
    ∀ r c : Fin 4, b.grid r c = 0 ∨
      (2 ≤ b.grid r c ∧ ∃ k, b.grid r c = 2 ^ k) := by
  have good : GoodGrid b.grid := by
    induction hb with
    | newBoard r4a pa r4b pb =>
      exact goodGrid_generateTile _ _ _ (goodGrid_generateTile _ _ _
        fun r c => Or.inl rfl)
    | left r4 pick hb ih => exact goodGrid_makeMove leftPairs r4 pick _ ih
    | right r4 pick hb ih => exact goodGrid_makeMove rightPairs r4 pick _ ih
    | up r4 pick hb ih => exact goodGrid_makeMove upPairs r4 pick _ ih
    | down r4 pick hb ih => exact goodGrid_makeMove downPairs r4 pick _ ih
  intro r c
  rcases good r c with h | ⟨k, hk1, _, hv⟩
  · exact Or.inl h
  · refine Or.inr ⟨?_, k, hv⟩
    rw [hv]
    calc (2 : Nat) = 2 ^ 1 := rfl
    _ ≤ 2 ^ k := Nat.pow_le_pow_right (by norm_num) hk1

/-- Witness for `reachable_cells_pow_two` on a concrete new board. -/
theorem reachable_cells_pow_two_witness :
    (NewBoard 0 0 0 0).grid 0 0 = 0 ∨
      (2 ≤ (NewBoard 0 0 0 0).grid 0 0 ∧
       ∃ k, (NewBoard 0 0 0 0).grid 0 0 = 2 ^ k) :=
  reachable_cells_pow_two _ (Reachable.newBoard 0 0 0 0) 0 0

/-- A `calcMove` whose two positions lie in another row does not change
row `r`. -/
lemma calcMove_rowOf_other (b : Board) (p q : Coordinate) (r : Fin 4)
    (hp : r ≠ p.Row) (hq : r ≠ q.Row) :
    rowOf (calcMove b p q).grid r = rowOf b.grid r := by
  simp only [calcMove, setCell, rowOf]
  split_ifs <;> simp_all [setCell, Fin.ext_iff, finv0, finv1, finv2, finv3]

/-- `calcMove` at `curPos = (r,1)`, `nextPos = (r,0)` acts on row `r` as
`step1`. -/
lemma calcMove_rowOf_step1 (b : Board) (r : Fin 4) :
    rowOf (calcMove b ⟨r, 1⟩ ⟨r, 0⟩).grid r = step1 (rowOf b.grid r) := by
  simp only [calcMove, setCell, rowOf, step1]
  split_ifs <;> simp_all [setCell, Fin.ext_iff, finv0, finv1, finv2, finv3]

/-- `calcMove` at `curPos = (r,2)`, `nextPos = (r,1)` acts on row `r` as
`step2`. -/
lemma calcMove_rowOf_step2 (b : Board) (r : Fin 4) :
    rowOf (calcMove b ⟨r, 2⟩ ⟨r, 1⟩).grid r = step2 (rowOf b.grid r) := by
  simp only [calcMove, setCell, rowOf, step2]
  split_ifs <;> simp_all [setCell, Fin.ext_iff, finv0, finv1, finv2, finv3]

/-- `calcMove` at `curPos = (r,3)`, `nextPos = (r,2)` acts on row `r` as
`step3`. -/
lemma calcMove_rowOf_step3 (b : Board) (r : Fin 4) :
    rowOf (calcMove b ⟨r, 3⟩ ⟨r, 2⟩).grid r = step3 (rowOf b.grid r) := by
  simp only [calcMove, setCell, rowOf, step3]
  split_ifs <;> simp_all [setCell, Fin.ext_iff, finv0, finv1, finv2, finv3]

/-- One left sweep acts on row 0 as `rowSweep`. -/
lemma rowOf_sweepLeft0 (b : Board) :
    rowOf (sweepLeft b).grid 0 = rowSweep (rowOf b.grid 0) := by
  simp only [sweepLeft, sweep, leftPairs, List.foldl]
  rw [calcMove_rowOf_other _ _ _ _ (by decide) (by decide)]
  rw [calcMove_rowOf_other _ _ _ _ (by decide) (by decide)]
  rw [calcMove_rowOf_other _ _ _ _ (by decide) (by decide)]
  rw [calcMove_rowOf_other _ _ _ _ (by decide) (by decide)]
  rw [calcMove_rowOf_other _ _ _ _ (by decide) (by decide)]
  rw [calcMove_rowOf_other _ _ _ _ (by decide) (by decide)]
  rw [calcMove_rowOf_other _ _ _ _ (by decide) (by decide)]
  rw [calcMove_rowOf_other _ _ _ _ (by decide) (by decide)]
  rw [calcMove_rowOf_other _ _ _ _ (by decide) (by decide)]
  rw [calcMove_rowOf_step3, calcMove_rowOf_step2, calcMove_rowOf_step1]
  rfl

/-- One left sweep acts on row 1 as `rowSweep`. -/
lemma rowOf_sweepLeft1 (b : Board) :
    rowOf (sweepLeft b).grid 1 = rowSweep (rowOf b.grid 1) := by
  simp only [sweepLeft, sweep, leftPairs, List.foldl]
  rw [calcMove_rowOf_other _ _ _ _ (by decide) (by decide)]
  rw [calcMove_rowOf_other _ _ _ _ (by decide) (by decide)]
  rw [calcMove_rowOf_other _ _ _ _ (by decide) (by decide)]
  rw [calcMove_rowOf_other _ _ _ _ (by decide) (by decide)]
  rw [calcMove_rowOf_other _ _ _ _ (by decide) (by decide)]
  rw [calcMove_rowOf_other _ _ _ _ (by decide) (by decide)]
  rw [calcMove_rowOf_step3, calcMove_rowOf_step2, calcMove_rowOf_step1]
  rw [calcMove_rowOf_other _ _ _ _ (by decide) (by decide)]
  rw [calcMove_rowOf_other _ _ _ _ (by decide) (by decide)]
  rw [calcMove_rowOf_other _ _ _ _ (by decide) (by decide)]
  rfl

/-- One left sweep acts on row 2 as `rowSweep`. -/
lemma rowOf_sweepLeft2 (b : Board) :
    rowOf (sweepLeft b).grid 2 = rowSweep (rowOf b.grid 2) := by
  simp only [sweepLeft, sweep, leftPairs, List.foldl]
  rw [calcMove_rowOf_other _ _ _ _ (by decide) (by decide)]
  rw [calcMove_rowOf_other _ _ _ _ (by decide) (by decide)]
  rw [calcMove_rowOf_other _ _ _ _ (by decide) (by decide)]
  rw [calcMove_rowOf_step3, calcMove_rowOf_step2, calcMove_rowOf_step1]
  rw [calcMove_rowOf_other _ _ _ _ (by decide) (by decide)]
  rw [calcMove_rowOf_other _ _ _ _ (by decide) (by decide)]
  rw [calcMove_rowOf_other _ _ _ _ (by decide) (by decide)]
  rw [calcMove_rowOf_other _ _ _ _ (by decide) (by decide)]
  rw [calcMove_rowOf_other _ _ _ _ (by decide) (by decide)]
  rw [calcMove_rowOf_other _ _ _ _ (by decide) (by decide)]
  rfl

/-- One left sweep acts on row 3 as `rowSweep`. -/
lemma rowOf_sweepLeft3 (b : Board) :
    rowOf (sweepLeft b).grid 3 = rowSweep (rowOf b.grid 3) := by
  simp only [sweepLeft, sweep, leftPairs, List.foldl]
  rw [calcMove_rowOf_step3, calcMove_rowOf_step2, calcMove_rowOf_step1]
  rw [calcMove_rowOf_other _ _ _ _ (by decide) (by decide)]
  rw [calcMove_rowOf_other _ _ _ _ (by decide) (by decide)]
  rw [calcMove_rowOf_other _ _ _ _ (by decide) (by decide)]
  rw [calcMove_rowOf_other _ _ _ _ (by decide) (by decide)]
  rw [calcMove_rowOf_other _ _ _ _ (by decide) (by decide)]
  rw [calcMove_rowOf_other _ _ _ _ (by decide) (by decide)]
  rw [calcMove_rowOf_other _ _ _ _ (by decide) (by decide)]
  rw [calcMove_rowOf_other _ _ _ _ (by decide) (by decide)]
  rw [calcMove_rowOf_other _ _ _ _ (by decide) (by decide)]
  rfl

/-- One left sweep acts on every row as `rowSweep`: the rows of the grid
are processed independently. -/
lemma rowOf_sweepLeft (b : Board) (r : Fin 4) :
    rowOf (sweepLeft b).grid r = rowSweep (rowOf b.grid r) := by
  fin_cases r
  · exact rowOf_sweepLeft0 b
  · exact rowOf_sweepLeft1 b
  · exact rowOf_sweepLeft2 b
  · exact rowOf_sweepLeft3 b

/-- The three sweeps of the slide phase act on every row as three
`rowSweep`s. -/
lemma rowOf_slideLeft (b : Board) (r : Fin 4) :
    rowOf (slideLeft b).grid r =
      rowSweep (rowSweep (rowSweep (rowOf b.grid r))) := by
  unfold slideLeft
  rw [rowOf_sweepLeft, rowOf_sweepLeft, rowOf_sweepLeft]

/-- Shape of a row after one sweep: the last cell is 0, or the row was
fully blocked (nonzero with distinct adjacent values) and is unchanged. -/
lemma rowSweep_last (a b c d : Nat) :
    (∃ x y z, rowSweep (a, b, c, d) = (x, y, z, 0)) ∨
    (rowSweep (a, b, c, d) = (a, b, c, d) ∧
      a ≠ 0 ∧ b ≠ 0 ∧ b ≠ a ∧ c ≠ 0 ∧ c ≠ b ∧ d ≠ c) := by
  by_cases ha : a = 0
  · exact Or.inl ⟨b, c, d, by simp [rowSweep, step1, step2, step3, ha]⟩
  · by_cases hba : b = a
    · exact Or.inl ⟨(a * 2) % U32, c, d,
        by simp [rowSweep, step1, step2, step3, ha, hba]⟩
    · by_cases hb : b = 0
      · exact Or.inl ⟨a, c, d,
          by simp [rowSweep, step1, step2, step3, ha, hba, hb, Ne.symm ha]⟩
      · by_cases hcb : c = b
        · exact Or.inl ⟨a, (b * 2) % U32, d,
            by simp [rowSweep, step1, step2, step3, ha, hba, hb, hcb]⟩
        · by_cases hc : c = 0
          · exact Or.inl ⟨a, b, d,
              by simp [rowSweep, step1, step2, step3, ha, hba, hb, hcb, hc,
                Ne.symm hb]⟩
          · by_cases hdc : d = c
            · exact Or.inl ⟨a, b, (c * 2) % U32,
                by simp [rowSweep, step1, step2, step3, ha, hba, hb, hcb, hc,
                  hdc]⟩
            · exact Or.inr ⟨by simp [rowSweep, step1, step2, step3, ha, hba,
                hb, hcb, hc, hdc], ha, hb, hba, hc, hcb, hdc⟩

/-- Shape of a `(x, y, z, 0)` row after one more sweep: the last two cells
are 0, or the row is blocked and unchanged. -/
lemma rowSweep_last3 (x y z : Nat) :
    (∃ p q, rowSweep (x, y, z, 0) = (p, q, 0, 0)) ∨
    (rowSweep (x, y, z, 0) = (x, y, z, 0) ∧
      x ≠ 0 ∧ y ≠ 0 ∧ y ≠ x ∧ z ≠ 0 ∧ z ≠ y) := by
  by_cases hx : x = 0
  · exact Or.inl ⟨y, z, by simp [rowSweep, step1, step2, step3, hx]⟩
  · by_cases hyx : y = x
    · exact Or.inl ⟨(x * 2) % U32, z,
        by simp [rowSweep, step1, step2, step3, hx, hyx]⟩
    · by_cases hy : y = 0
      · exact Or.inl ⟨x, z,
          by simp [rowSweep, step1, step2, step3, hx, hyx, hy, Ne.symm hx]⟩
      · by_cases hzy : z = y
        · exact Or.inl ⟨x, (y * 2) % U32,
            by simp [rowSweep, step1, step2, step3, hx, hyx, hy, hzy]⟩
        · by_cases hz : z = 0
          · exact Or.inl ⟨x, y,
              by simp [rowSweep, step1, step2, step3, hx, hyx, hy, hzy, hz,
                Ne.symm hy]⟩
          · exact Or.inr ⟨by simp [rowSweep, step1, step2, step3, hx, hyx,
              hy, hzy, hz, Ne.symm hz], hx, hy, hyx, hz, hzy⟩

/-- A `(p, q, 0, 0)` row never holds adjacent equal nonzero values after
one more sweep. -/
lemma rowSweep_pair (p q : Nat) : noAdjRow (rowSweep (p, q, 0, 0)) := by
  by_cases hp : p = 0
  · simp [rowSweep, step1, step2, step3, noAdjRow, hp]
  · by_cases hqp : q = p
    · simp [rowSweep, step1, step2, step3, noAdjRow, hp, hqp]
    · by_cases hq : q = 0
      · simp [rowSweep, step1, step2, step3, noAdjRow, hp, hqp, hq,
          Ne.symm hp]
      · simp [rowSweep, step1, step2, step3, noAdjRow, hp, hqp, hq,
          Ne.symm hq, Ne.symm hqp]

/-- A fully blocked row is a fixed point of the sweep. -/
lemma rowSweep_blocked4 (a b c d : Nat) (ha : a ≠ 0) (hb : b ≠ 0)
    (hba : b ≠ a) (hc : c ≠ 0) (hcb : c ≠ b) (hdc : d ≠ c) :
    rowSweep (a, b, c, d) = (a, b, c, d) := by
  simp [rowSweep, step1, step2, step3, ha, hb, hba, hc, hcb, hdc]

/-- A blocked `(x, y, z, 0)` row is a fixed point of the sweep. -/
lemma rowSweep_blocked3 (x y z : Nat) (hx : x ≠ 0) (hy : y ≠ 0)
    (hyx : y ≠ x) (hz : z ≠ 0) (hzy : z ≠ y) :
    rowSweep (x, y, z, 0) = (x, y, z, 0) := by
  simp [rowSweep, step1, step2, step3, hx, hy, hyx, hz, hzy, Ne.symm hz]

/-- A fully blocked row has no adjacent equal nonzero values. -/
lemma noAdjRow_blocked4 (a b c d : Nat) (hba : b ≠ a) (hcb : c ≠ b)
    (hdc : d ≠ c) : noAdjRow (a, b, c, d) :=
  ⟨fun h => (hba h.symm).elim, fun h => (hcb h.symm).elim,
   fun h => (hdc h.symm).elim⟩

/-- A blocked `(x, y, z, 0)` row has no adjacent equal nonzero values. -/
lemma noAdjRow_blocked3 (x y z : Nat) (hyx : y ≠ x) (hzy : z ≠ y) :
    noAdjRow (x, y, z, 0) :=
  ⟨fun h => (hyx h.symm).elim, fun h => (hzy h.symm).elim, fun h => h⟩

/-- After three sweeps, no row holds two adjacent equal nonzero values. -/
lemma noAdjRow_rowSweep3 (a b c d : Nat) :
    noAdjRow (rowSweep (rowSweep (rowSweep (a, b, c, d)))) := by
  rcases rowSweep_last a b c d with ⟨x, y, z, h1⟩ |
    ⟨hfix, ha, hb, hba, hc, hcb, hdc⟩
  · rw [h1]
    rcases rowSweep_last3 x y z with ⟨p, q, h2⟩ |
      ⟨hfix2, hx, hy, hyx, hz, hzy⟩
    · rw [h2]
      exact rowSweep_pair p q
    · rw [hfix2, rowSweep_blocked3 x y z hx hy hyx hz hzy]
      exact noAdjRow_blocked3 x y z hyx hzy
  · rw [hfix, hfix, hfix]
    exact noAdjRow_blocked4 a b c d hba hcb hdc

/-- Claim C2, counterexample: a row `[2, 2, 2, 2]` becomes `[8, 0, 0, 0]`
(score + 8) under the slide phase of one `MoveLeft` call: the 4 produced
by the first merge merges again into an 8 within the same call, so a tile
that results from a merge does merge again with a further neighbor; the
no-cascade outcome `[4, 4, 0, 0]` is not produced. -/
theorem moveLeft_cascade_cex :
    (slideLeft exRow2222).grid = mkGrid [[8, 0, 0, 0]] ∧
    (slideLeft exRow2222).score = 8 ∧
    ¬((slideLeft exRow2222).grid = mkGrid [[4, 4, 0, 0]]) := by
  decide

/-- Claim C2, amended: within a single `MoveLeft` call a tile that results
from a merge CAN merge again with a further neighbor (the three sweeps
re-examine merged cells, e.g. the first row of `[2, 2, 2, 2]` slides to
`[8, 0, 0, 0]`); nevertheless, after the slide phase of `MoveLeft` (the
three sweeps, before the random spawn) no row contains two adjacent equal
nonzero values. -/
theorem moveLeft_slide_no_adjacent_equal :
    (∀ (b : Board) (r : Fin 4), noAdjRow (rowOf (slideLeft b).grid r)) ∧
    (slideLeft exRow2222).grid = mkGrid [[8, 0, 0, 0]] := by
  constructor
  · intro b r
    rw [rowOf_slideLeft]
    rcases hrow : rowOf b.grid r with ⟨a2, b2, c2, d2⟩
    exact noAdjRow_rowSweep3 a2 b2 c2 d2
  · decide

/-- In-range `gat` access. -/
lemma gat_eq (g : Grid) (r c : Nat) (hr : r < 4) (hc : c < 4) :
    gat g r c = g ⟨r, hr⟩ ⟨c, hc⟩ :=
  dif_pos ⟨hr, hc⟩

/-- `gat` on the values of `Fin 4` indices is the grid itself. -/
lemma gat_fin (g : Grid) (r c : Fin 4) : gat g r.val c.val = g r c :=
  dif_pos ⟨r.isLt, c.isLt⟩

/-- Claim C3: `IsEndGame` returns true exactly when the grid is
completely full and no two orthogonally adjacent cells share the same
value; in particular the 2/4 checkerboard reports true and the same grid
with one cell set to 0 reports false. -/
theorem isEndGame_iff_spec :
    (∀ b : Board, IsEndGame b = true ↔ EndSpec b) ∧
    IsEndGame chkBoard = true ∧ IsEndGame chkBoard0 = false := by
  refine ⟨fun b => ?_, by decide, by decide⟩
  unfold IsEndGame
  simp only [List.all_eq_true, List.mem_range, Bool.and_eq_true, bne_iff_ne,
    Bool.not_eq_true', Bool.and_eq_false_iff, decide_eq_false_iff_not,
    beq_eq_false_iff_ne]
  constructor
  · intro h
    refine ⟨fun r c => ?_, fun p q hadj => ?_⟩
    · have hrc := (h r.val r.isLt c.val c.isLt).1.1.1.1
      rwa [gat_fin] at hrc
    · unfold AdjCoord at hadj
      rcases hadj with ⟨hrow, hc1 | hc1⟩ | ⟨hcol, hr1 | hr1⟩
      · have h5 := (h p.Row.val p.Row.isLt p.Col.val p.Col.isLt).2
        have hlt : p.Col.val < 3 := by
          have := q.Col.isLt
          omega
        rcases h5 with h5 | h5
        · exact absurd hlt h5
        · rw [gat_fin, hc1, gat_fin] at h5
          rw [← hrow]
          exact h5
      · have h4 := (h p.Row.val p.Row.isLt p.Col.val p.Col.isLt).1.2
        have hpos : 0 < p.Col.val := by omega
        rcases h4 with h4 | h4
        · exact absurd hpos h4
        · have hidx : p.Col.val - 1 = q.Col.val := by omega
          rw [gat_fin, hidx, gat_fin] at h4
          rw [← hrow]
          exact h4
      · have h3 := (h p.Row.val p.Row.isLt p.Col.val p.Col.isLt).1.1.2
        have hlt : p.Row.val < 3 := by
          have := q.Row.isLt
          omega
        rcases h3 with h3 | h3
        · exact absurd hlt h3
        · rw [gat_fin, hr1, gat_fin] at h3
          rw [← hcol]
          exact h3
      · have h2 := (h p.Row.val p.Row.isLt p.Col.val p.Col.isLt).1.1.1.2
        have hpos : 0 < p.Row.val := by omega
        rcases h2 with h2 | h2
        · exact absurd hpos h2
        · have hidx : p.Row.val - 1 = q.Row.val := by omega
          rw [gat_fin, hidx, gat_fin] at h2
          rw [← hcol]
          exact h2
  · rintro ⟨hfull, hadj⟩ row hrow col hcol
    refine ⟨⟨⟨⟨?_, ?_⟩, ?_⟩, ?_⟩, ?_⟩
    · rw [gat_eq _ _ _ hrow hcol]
      exact hfull _ _
    · by_cases h0 : 0 < row
      · refine Or.inr ?_
        rw [gat_eq _ _ _ hrow hcol, gat_eq _ _ _ (by omega : row - 1 < 4) hcol]
        refine hadj ⟨⟨row, hrow⟩, ⟨col, hcol⟩⟩ ⟨⟨row - 1, by omega⟩, ⟨col, hcol⟩⟩
          (Or.inr ⟨rfl, Or.inr ?_⟩)
        show row - 1 + 1 = row
        omega
      · exact Or.inl h0
    · by_cases h3 : row < 3
      · refine Or.inr ?_
        rw [gat_eq _ _ _ hrow hcol, gat_eq _ _ _ (by omega : row + 1 < 4) hcol]
        exact hadj ⟨⟨row, hrow⟩, ⟨col, hcol⟩⟩ ⟨⟨row + 1, by omega⟩, ⟨col, hcol⟩⟩
          (Or.inr ⟨rfl, Or.inl rfl⟩)
      · exact Or.inl h3
    · by_cases h0 : 0 < col
      · refine Or.inr ?_
        rw [gat_eq _ _ _ hrow hcol, gat_eq _ _ _ hrow (by omega : col - 1 < 4)]
        refine hadj ⟨⟨row, hrow⟩, ⟨col, hcol⟩⟩ ⟨⟨row, hrow⟩, ⟨col - 1, by omega⟩⟩
          (Or.inl ⟨rfl, Or.inr ?_⟩)
        show col - 1 + 1 = col
        omega
      · exact Or.inl h0
    · by_cases h3 : col < 3
      · refine Or.inr ?_
        rw [gat_eq _ _ _ hrow hcol, gat_eq _ _ _ hrow (by omega : col + 1 < 4)]
        exact hadj ⟨⟨row, hrow⟩, ⟨col, hcol⟩⟩ ⟨⟨row, hrow⟩, ⟨col + 1, by omega⟩⟩
          (Or.inl ⟨rfl, Or.inl rfl⟩)
      · exact Or.inl h3

end G048
